import Mathlib

/-!
Verification of the VeoBatch job-queue state machine.

This development is a shallow embedding of the core logic of the repository:

* src/types.ts          : the JobStatus enum and the VideoJob record.
* src/App.tsx           : the job store, the mutators (handleAddJobs, retryJob,
                          deleteJob, clearAll, handleConnect) and the queue
                          processor (the processQueue closure created by the
                          effect at lines 59-119).
* src/services/geminiService.ts : the generateVideoWithVeo wrapper, modelled by
                          its catch clause over an oracle outcome of the
                          remote try block.

JavaScript strings are embedded as Lean String values; the string operations
the code uses (split on a newline, trim, includes) are defined below on
character lists, which is what a JavaScript string is.  Timestamps
(Date.now()) are Nat values supplied by the environment; a ghost clock field
records the last observed timestamp so that monotonicity of the wall clock can
be stated as a side condition on steps.  A Blob is an opaque handle.

The queue processor is an async closure.  Two views of it are defined, both
translated from the same source lines:

* trigger / resolve : a single iteration of processQueue, cut at its only
  suspension point (the await of generateVideoWithVeo).  trigger models entry
  up to either the synchronous precondition failure or the launch of the
  client call; resolve models the continuation after the await (the success
  write or the catch clause, then the finally block).  The pair generates a
  step relation Reach over application states, used for invariant claims.
  The inflight field of the state is a ghost recording the id and prompt of
  the job captured by the suspended continuation; processingRef is the real
  re-entrancy ref of App.tsx line 15.

* processQueue : the fuelled synchronous drain obtained by inlining a client
  oracle at the suspension point.  Crucially, the processQueue closure in
  App.tsx captures the jobs array and the apiKeyReady flag of the render that
  created the effect: the recursive call in the finally block (line 117)
  re-reads that captured snapshot, not the current store.  The drain therefore
  carries the snapshot (snapJobs, snapReady) unchanged through the recursion,
  while the functional setJobs / setApiKeyReady updates apply to the live
  state.  Entry from the effect body (line 121) passes the live values as the
  snapshot.
-/

set_option linter.unusedVariables false

namespace VeoBatch

/-- Job lifecycle states, from src/types.ts (enum JobStatus). -/
inductive JobStatus
  | PENDING
  | PROCESSING
  | COMPLETED
  | FAILED
deriving DecidableEq

/-- Opaque handle standing for a browser Blob (the binary video payload). -/
abbrev Blob := Nat

/-- One unit of work, from src/types.ts (interface VideoJob). -/
structure VideoJob where
  id : String
  prompt : String
  status : JobStatus
  videoUrl : Option String := none
  videoBlob : Option Blob := none
  fileName : Option String := none
  createdAt : Nat
  completedAt : Option Nat := none
  error : Option String := none
deriving DecidableEq

/-- Result of a successful generation, from src/types.ts
(interface GenerateVideoResult). -/
structure GenerateVideoResult where
  videoUrl : String
  videoBlob : Blob
deriving DecidableEq

/- ### JavaScript string primitives used by the code -/

/-- JavaScript String.prototype.trim on a character list: drop whitespace from
both ends. -/
def trimChars (l : List Char) : List Char :=
  ((l.dropWhile Char.isWhitespace).reverse.dropWhile Char.isWhitespace).reverse

/-- JavaScript s.trim(). -/
def jsTrim (s : String) : String :=
  (trimChars s.toList).asString

/-- JavaScript s.split('\n') on a character list.  Splitting never yields an
empty list: the empty input gives one empty chunk, as in JavaScript. -/
def splitNlChars : List Char → List (List Char)
  | [] => [[]]
  | c :: cs =>
    if c = '\n' then [] :: splitNlChars cs
    else
      match splitNlChars cs with
      | [] => [[c]]
      | t :: ts => (c :: t) :: ts

/-- JavaScript s.split('\n'). -/
def jsSplitNl (s : String) : List String :=
  (splitNlChars s.toList).map List.asString

/-- Substring containment on character lists: sub occurs as a prefix of some
suffix. -/
def containsChars (sub : List Char) : List Char → Bool
  | [] => sub.isEmpty
  | c :: cs => sub.isPrefixOf (c :: cs) || containsChars sub cs

/-- JavaScript s.includes(sub). -/
def includesStr (sub s : String) : Bool :=
  containsChars sub.toList s.toList

/- ### The video-generation client wrapper (src/services/geminiService.ts) -/

/-- Outcome of the try block of generateVideoWithVeo (remote generation,
polling and download, geminiService.ts lines 41-81), supplied as an oracle:
either a result, or a raised error carrying a message (this covers the
remote API error, the missing-URI error and the download error). -/
inductive RawOutcome
  | success (result : GenerateVideoResult)
  | failure (msg : String)

/-- The recognized session-invalid message pattern
(geminiService.ts line 85, App.tsx line 98). -/
def entityNotFoundMarker : String := "Requested entity was not found"

/-- The message generateVideoWithVeo substitutes for a session-invalid error
(geminiService.ts line 87). -/
def sessionInvalidMessage : String :=
  "API Key session expired or invalid. Please re-select your key."

/-- generateVideoWithVeo, modelled as its catch clause (geminiService.ts lines
83-91) over the oracle outcome of the try block: an error whose message
contains the marker is replaced by sessionInvalidMessage, any other error is
rethrown unchanged. -/
def generateVideoWithVeo (attempt : RawOutcome) : Except String GenerateVideoResult :=
  match attempt with
  | RawOutcome.success result => Except.ok result
  | RawOutcome.failure msg =>
    if includesStr entityNotFoundMarker msg then Except.error sessionInvalidMessage
    else Except.error msg

/- ### Application state (the useState / useRef cells of App.tsx) -/

/-- Observable events of a processQueue run: an invocation of
generateVideoWithVeo, and the terminal write for a job. -/
inductive Ev
  | call (id prompt : String)
  | completed (id : String)
  | failed (id msg : String)
deriving DecidableEq

/-- The component state of App.tsx: apiKeyReady, jobs, isProcessing (useState,
lines 10-13) and processingRef (useRef, line 16).  inflight is a ghost field
recording the job id and prompt captured by a suspended generateVideoWithVeo
await, none when no call is in flight.  clock is a ghost recording the last
value returned by Date.now(). -/
structure AppState where
  apiKeyReady : Bool
  jobs : List VideoJob
  isProcessing : Bool
  processingRef : Bool
  inflight : Option (String × String)
  clock : Nat
deriving DecidableEq

/-- The initial component state (App.tsx lines 10-16). -/
def initState : AppState :=
  { apiKeyReady := false
    jobs := []
    isProcessing := false
    processingRef := false
    inflight := none
    clock := 0 }

/-- The setJobs update pattern used throughout App.tsx:
prev.map(j => j.id === tgt ? patched(j) : j). -/
def updateJob (tgt : String) (g : VideoJob → VideoJob) (jobs : List VideoJob) :
    List VideoJob :=
  jobs.map fun j => if j.id == tgt then g j else j

/-- setJobs update marking a job PROCESSING (App.tsx line 77). -/
def markProcessing (tgt : String) (jobs : List VideoJob) : List VideoJob :=
  updateJob tgt (fun j => { j with status := JobStatus.PROCESSING }) jobs

/-- setJobs update marking a job COMPLETED with its result and completion time
(App.tsx lines 87-93). -/
def markCompleted (tgt : String) (result : GenerateVideoResult) (now : Nat)
    (jobs : List VideoJob) : List VideoJob :=
  updateJob tgt (fun j => { j with
    status := JobStatus.COMPLETED
    videoUrl := some result.videoUrl
    videoBlob := some result.videoBlob
    completedAt := some now }) jobs

/-- setJobs update marking a job FAILED with an error message
(App.tsx lines 103-107). -/
def markFailed (tgt msg : String) (jobs : List VideoJob) : List VideoJob :=
  updateJob tgt (fun j => { j with status := JobStatus.FAILED, error := some msg }) jobs

/-- The predicate of the pending-job scan (App.tsx line 64). -/
def pendingP : VideoJob → Bool := fun j => j.status == JobStatus.PENDING

/- ### User-facing mutators of App.tsx -/

/-- The non-empty trimmed lines of the input block (App.tsx line 46). -/
def nonEmptyLines (text : String) : List String :=
  (jsSplitNl text).filter fun line => 0 < (jsTrim line).length

/-- The batch of jobs created from the input block (App.tsx lines 47-52): one
PENDING job per non-empty trimmed line, with fresh identifiers supplied by
freshId in place of crypto.randomUUID() and the same Date.now() for the whole
batch. -/
def newJobsOf (text : String) (freshId : Nat → String) (now : Nat) :
    List VideoJob :=
  (nonEmptyLines text).enum.map fun p =>
    { id := freshId p.1
      prompt := jsTrim p.2
      status := JobStatus.PENDING
      createdAt := now }

/-- handleAddJobs (App.tsx lines 43-56): no-op on a blank input, otherwise
append the new jobs to the store. -/
def handleAddJobs (text : String) (freshId : Nat → String) (now : Nat)
    (s : AppState) : AppState :=
  if jsTrim text = "" then s
  else { s with jobs := s.jobs ++ newJobsOf text freshId now, clock := now }

/-- retryJob (App.tsx lines 122-124): reset the job matching the id to PENDING
and clear its error. -/
def retryJob (id : String) (s : AppState) : AppState :=
  let patched := fun j => { j with status := JobStatus.PENDING, error := none }
  { s with jobs := updateJob id patched s.jobs }

/-- deleteJob (App.tsx lines 126-128): remove the job matching the id. -/
def deleteJob (id : String) (s : AppState) : AppState :=
  { s with jobs := s.jobs.filter fun j => j.id != id }

/-- clearAll (App.tsx lines 130-134), after the user confirms. -/
def clearAll (s : AppState) : AppState :=
  { s with jobs := [] }

/-- setApiKeyReady as performed by the initial key check (App.tsx line 22) with
the checked value, or by handleConnect (App.tsx line 35) with true. -/
def setApiKeyReady (b : Bool) (s : AppState) : AppState :=
  { s with apiKeyReady := b }

/- ### The queue processor, one iteration (App.tsx lines 60-118) -/

/-- One entry of the processQueue closure, up to its suspension point, reading
the pending scan and the readiness flag from the closure snapshot (snapJobs,
snapReady) and applying updates to the live state:

* line 61: return immediately when processingRef is set;
* lines 64-69: scan the snapshot for the first PENDING job; when none, report
  idle;
* lines 72-77: set the busy flag and mark the selected job PROCESSING;
* lines 80-82 with 95-108: when the snapshot readiness flag is false, the
  thrown precondition error is caught at once: the job is failed with the
  message "API Key not connected" (which does not contain the marker), the
  finally block clears the busy flag, and no client call is made;
* lines 84: otherwise the generateVideoWithVeo call starts; the ghost inflight
  field records the captured job id and prompt.

Returns the new live state and the emitted events. -/
def trigger (snapJobs : List VideoJob) (snapReady : Bool) (s : AppState) :
    AppState × List Ev :=
  if s.processingRef then (s, [])
  else
    match snapJobs.find? pendingP with
    | none => ({ s with isProcessing := false }, [])
    | some job =>
      let s1 : AppState :=
        { s with
          processingRef := true
          isProcessing := true
          jobs := markProcessing job.id s.jobs }
      if snapReady then
        ({ s1 with inflight := some (job.id, job.prompt) },
          [Ev.call job.id job.prompt])
      else
        ({ s1 with
           jobs := markFailed job.id "API Key not connected" s1.jobs
           processingRef := false },
          [Ev.failed job.id "API Key not connected"])

/-- The continuation of a suspended generateVideoWithVeo call (App.tsx lines
86-116), applied to the live state when the awaited promise settles:

* success (lines 87-93): mark the captured job COMPLETED with the result and
  the current Date.now();
* failure (lines 95-107): when the error message contains the marker, clear
  the live readiness flag; mark the job FAILED with the message, or with
  "Generation failed" when the message is empty (the || default of line 106);
* finally (lines 109-112): clear the busy flag.  The recursive processQueue()
  call of line 111 is a further trigger step with the closure snapshot.

When no call is in flight the continuation does not exist: no-op. -/
def resolve (outcome : Except String GenerateVideoResult) (now : Nat)
    (s : AppState) : AppState × List Ev :=
  match s.inflight with
  | none => (s, [])
  | some (id, _prompt) =>
    match outcome with
    | Except.ok result =>
      ({ s with
         jobs := markCompleted id result now s.jobs
         processingRef := false
         inflight := none
         clock := now },
        [Ev.completed id])
    | Except.error msg =>
      ({ s with
         apiKeyReady := if includesStr entityNotFoundMarker msg then false
                        else s.apiKeyReady
         jobs := markFailed id (if msg = "" then "Generation failed" else msg)
                   s.jobs
         processingRef := false
         inflight := none },
        [Ev.failed id (if msg = "" then "Generation failed" else msg)])

/- ### The queue processor, fuelled drain (App.tsx lines 59-118) -/

/-- The full run of a processQueue closure over a client oracle, by fuel.  One
iteration per unit of fuel, cut exactly as trigger / resolve above, with the
recursive call of the finally block (line 111) carrying the same closure
snapshot (snapJobs, snapReady) — the captured jobs array and apiKeyReady value
of the render that created the effect — while every update applies to the live
state.  The client oracle stands for an awaited generateVideoWithVeo and now
for Date.now() at completion. -/
def processQueue (client : String → Except String GenerateVideoResult)
    (now : Nat) (snapJobs : List VideoJob) (snapReady : Bool) :
    Nat → AppState → AppState × List Ev
  | 0, s => (s, [])
  | fuel + 1, s =>
    if s.processingRef then (s, [])
    else
      match snapJobs.find? pendingP with
      | none => ({ s with isProcessing := false }, [])
      | some job =>
        let s1 : AppState :=
          { s with
            processingRef := true
            isProcessing := true
            jobs := markProcessing job.id s.jobs }
        if snapReady then
          match client job.prompt with
          | Except.ok result =>
            let s2 : AppState :=
              { s1 with
                jobs := markCompleted job.id result now s1.jobs
                processingRef := false
                clock := now }
            let next := processQueue client now snapJobs snapReady fuel s2
            (next.1, Ev.call job.id job.prompt :: Ev.completed job.id :: next.2)
          | Except.error msg =>
            let s2 : AppState :=
              { s1 with
                apiKeyReady := if includesStr entityNotFoundMarker msg then false
                               else s1.apiKeyReady
                jobs := markFailed job.id
                          (if msg = "" then "Generation failed" else msg) s1.jobs
                processingRef := false }
            let next := processQueue client now snapJobs snapReady fuel s2
            (next.1, Ev.call job.id job.prompt ::
              Ev.failed job.id (if msg = "" then "Generation failed" else msg) ::
              next.2)
        else
          let s2 : AppState :=
            { s1 with
              jobs := markFailed job.id "API Key not connected" s1.jobs
              processingRef := false }
          let next := processQueue client now snapJobs snapReady fuel s2
          (next.1, Ev.failed job.id "API Key not connected" :: next.2)

/- ### Reachable states -/

/-- States reachable from the initial state by the operations of App.tsx.  The
trig step takes an arbitrary closure snapshot: real executions pass either the
live jobs and readiness values (entry from the effect body, line 121) or the
values captured by an earlier render (the recursive call of line 111), both of
which are instances.  The add step requires the identifiers produced by
crypto.randomUUID() to be mutually distinct and new to the store, and every
step observing Date.now() requires the wall clock not to run backwards. -/
inductive Reach : AppState → Prop
  | init : Reach initState
  | setReady {s : AppState} (b : Bool) : Reach s → Reach (setApiKeyReady b s)
  | add {s : AppState} (text : String) (freshId : Nat → String) (now : Nat) :
      Reach s → s.clock ≤ now →
      ((newJobsOf text freshId now).map (fun j => j.id)).Nodup →
      (∀ i ∈ (newJobsOf text freshId now).map (fun j => j.id),
        i ∉ s.jobs.map (fun j => j.id)) →
      Reach (handleAddJobs text freshId now s)
  | retry {s : AppState} (id : String) : Reach s → Reach (retryJob id s)
  | del {s : AppState} (id : String) : Reach s → Reach (deleteJob id s)
  | clear {s : AppState} : Reach s → Reach (clearAll s)
  | trig {s : AppState} (snapJobs : List VideoJob) (snapReady : Bool) :
      Reach s → Reach (trigger snapJobs snapReady s).1
  | res {s : AppState} (outcome : Except String GenerateVideoResult) (now : Nat) :
      Reach s → s.clock ≤ now → Reach (resolve outcome now s).1

/-- The state invariant maintained by every operation:

* identifiers are unique in the store;
* no job was created after the last observed Date.now();
* a COMPLETED job carries a result reference and a completion time not before
  its creation time;
* a FAILED job carries an error message;
* a PROCESSING job is exactly the job captured by the in-flight call;
* the busy ref is set precisely while a call is in flight. -/
structure Inv (s : AppState) : Prop where
  nodup : (s.jobs.map (fun j => j.id)).Nodup
  created_le : ∀ j ∈ s.jobs, j.createdAt ≤ s.clock
  completed_ok : ∀ j ∈ s.jobs, j.status = JobStatus.COMPLETED →
    j.videoUrl.isSome ∧ j.videoBlob.isSome ∧
      ∃ t, j.completedAt = some t ∧ j.createdAt ≤ t
  failed_ok : ∀ j ∈ s.jobs, j.status = JobStatus.FAILED → j.error.isSome
  proc_inflight : ∀ j ∈ s.jobs, j.status = JobStatus.PROCESSING →
    ∃ p, s.inflight = some (j.id, p)
  ref_inflight : s.processingRef = s.inflight.isSome

/- ### Concrete states and runs used as evidence -/

/-- The state after a successful key selection (handleConnect). -/
def exConnected : AppState := setApiKeyReady true initState

/-- One job with prompt "a cat" added at time 5 with fresh id "id0". -/
def exAdded : AppState := handleAddJobs "a cat" (fun _ => "id0") 5 exConnected

/-- The drain is entered from the effect with the live snapshot and launches
the client call for the pending job. -/
def exLaunched : AppState := (trigger exAdded.jobs true exAdded).1

/-- The in-flight call rejects with a plain error: the job becomes FAILED. -/
def staleFail : AppState := (resolve (Except.error "boom") 6 exLaunched).1

/-- The finally block re-enters processQueue with the closure snapshot
exAdded.jobs, in which the job is still PENDING: the failed job is marked
PROCESSING again and a second client call is launched for it. -/
def staleRelaunch : AppState := (trigger exAdded.jobs true staleFail).1

/-- The second call succeeds: the job becomes COMPLETED while its error field
still carries the message of the first failure. -/
def staleCompleted : AppState :=
  (resolve (Except.ok { videoUrl := "blob:video", videoBlob := 0 }) 7 staleRelaunch).1

/-- The loop re-enters once more with the same stale snapshot. -/
def staleRelaunch2 : AppState := (trigger exAdded.jobs true staleCompleted).1

/-- The third call fails: the job becomes FAILED while it still carries the
result reference attached by the second attempt. -/
def staleFailed2 : AppState := (resolve (Except.error "boom again") 8 staleRelaunch2).1

/-- Jobs A, B, C appended in that order, all PENDING. -/
def exJobA : VideoJob :=
  { id := "a", prompt := "alpha", status := JobStatus.PENDING, createdAt := 1 }

def exJobB : VideoJob :=
  { id := "b", prompt := "beta", status := JobStatus.PENDING, createdAt := 2 }

def exJobC : VideoJob :=
  { id := "c", prompt := "gamma", status := JobStatus.PENDING, createdAt := 3 }

/-- A connected idle store holding A, B, C. -/
def exOrderState : AppState :=
  { apiKeyReady := true
    jobs := [exJobA, exJobB, exJobC]
    isProcessing := false
    processingRef := false
    inflight := none
    clock := 3 }

/-- A client that always succeeds. -/
def exOkClient : String → Except String GenerateVideoResult :=
  fun _ => Except.ok { videoUrl := "blob:u", videoBlob := 0 }

/-- A client whose remote try block always raises an error containing the
session-invalid marker, composed through generateVideoWithVeo. -/
def exSessionClient : String → Except String GenerateVideoResult :=
  fun _ => generateVideoWithVeo (RawOutcome.failure "Requested entity was not found")

/-- A COMPLETED job, for stores with nothing PENDING. -/
def exDoneJob : VideoJob :=
  { id := "d"
    prompt := "delta"
    status := JobStatus.COMPLETED
    videoUrl := some "blob:d"
    videoBlob := some 0
    createdAt := 1
    completedAt := some 2 }

/-- A connected store with one COMPLETED job and no PENDING job. -/
def exIdleState : AppState :=
  { apiKeyReady := true
    jobs := [exDoneJob]
    isProcessing := true
    processingRef := false
    inflight := none
    clock := 2 }

/-- A job whose client call is in flight. -/
def exProcJob : VideoJob :=
  { id := "a", prompt := "alpha", status := JobStatus.PROCESSING, createdAt := 1 }

/-- A store where job "a" is in flight, for the delete-while-processing
scenario. -/
def exInflightState : AppState :=
  { apiKeyReady := true
    jobs := [exProcJob, exJobB]
    isProcessing := true
    processingRef := true
    inflight := some ("a", "alpha")
    clock := 3 }

/-- A FAILED job, for the retry scenario. -/
def exFailedJob : VideoJob :=
  { id := "f"
    prompt := "phi"
    status := JobStatus.FAILED
    createdAt := 1
    error := some "boom" }

/-- A store with one FAILED job. -/
def exRetryState : AppState :=
  { apiKeyReady := true
    jobs := [exFailedJob]
    isProcessing := false
    processingRef := false
    inflight := none
    clock := 1 }

/-- A PENDING job in a disconnected store. -/
def exNotReadyJob : VideoJob :=
  { id := "n", prompt := "nu", status := JobStatus.PENDING, createdAt := 1 }

/-- A disconnected store (readiness flag false) with one PENDING job. -/
def exNotReadyState : AppState :=
  { apiKeyReady := false
    jobs := [exNotReadyJob]
    isProcessing := false
    processingRef := false
    inflight := none
    clock := 1 }

/-- The job held by staleCompleted: completed by the second (stale) attempt,
still carrying the error of the first. -/
def staleCompletedJob : VideoJob :=
  { id := "id0"
    prompt := "a cat"
    status := JobStatus.COMPLETED
    videoUrl := some "blob:video"
    videoBlob := some 0
    createdAt := 5
    completedAt := some 7
    error := some "boom" }

/- ### Lemmas about the setJobs update pattern -/

theorem updateJob_map_id (tgt : String) (g : VideoJob → VideoJob)
    (hg : ∀ j, (g j).id = j.id) (l : List VideoJob) :
    (updateJob tgt g l).map (fun j => j.id) = l.map (fun j => j.id) := by
  unfold updateJob
  induction l with
  | nil => rfl
  | cons a t ih =>
    simp only [List.map_cons, ih]
    congr 1
    split
    · exact hg a
    · rfl

theorem updateJob_not_mem (tgt : String) (g : VideoJob → VideoJob)
    (l : List VideoJob) (h : ∀ j ∈ l, j.id ≠ tgt) : updateJob tgt g l = l := by
  unfold updateJob
  induction l with
  | nil => rfl
  | cons a t ih =>
    have ha : ¬ ((a.id == tgt) = true) := by
      simp only [beq_iff_eq]
      exact h a (List.mem_cons_self a t)
    simp only [List.map_cons, if_neg ha]
    rw [ih fun j hj => h j (List.mem_cons_of_mem a hj)]

theorem mem_updateJob {x : VideoJob} {tgt : String} {g : VideoJob → VideoJob}
    {l : List VideoJob} (hx : x ∈ updateJob tgt g l) :
    ∃ j, j ∈ l ∧
      (((j.id == tgt) = true ∧ x = g j) ∨ ((j.id == tgt) = false ∧ x = j)) := by
  obtain ⟨j, hj, he⟩ := List.mem_map.1 hx
  by_cases h : (j.id == tgt) = true
  · exact ⟨j, hj, Or.inl ⟨h, by rw [← he]; simp [h]⟩⟩
  · refine ⟨j, hj, Or.inr ⟨by simpa using h, ?_⟩⟩
    rw [← he]; simp [h]

theorem updateJob_mem_of_mem {j : VideoJob} (tgt : String) (g : VideoJob → VideoJob)
    {l : List VideoJob} (hj : j ∈ l) :
    (if j.id == tgt then g j else j) ∈ updateJob tgt g l :=
  List.mem_map.2 ⟨j, hj, rfl⟩

theorem updateJob_updateJob (tgt : String) (g2 g1 : VideoJob → VideoJob)
    (hg : ∀ j, (g1 j).id = j.id) (l : List VideoJob) :
    updateJob tgt g2 (updateJob tgt g1 l) = updateJob tgt (fun j => g2 (g1 j)) l := by
  unfold updateJob
  rw [List.map_map]
  apply List.map_congr_left
  intro a _
  by_cases h : (a.id == tgt) = true
  · have h1 : ((g1 a).id == tgt) = true := by
      rw [hg a]; exact h
    simp only [Function.comp, h, if_pos, h1, if_true]
  · simp only [Function.comp, if_neg h]

/-- Splitting a list at the first element satisfying the scan predicate. -/
theorem find?_split {α : Type} {p : α → Bool} :
    ∀ {l : List α} {a : α}, l.find? p = some a →
      ∃ l1 l2, l = l1 ++ a :: l2 ∧ ∀ b ∈ l1, p b = false := by
  intro l
  induction l with
  | nil => intro a h; simp [List.find?] at h
  | cons x t ih =>
    intro a h
    by_cases hx : p x = true
    · rw [List.find?_cons_of_pos _ hx] at h
      obtain rfl : x = a := by injection h
      exact ⟨[], t, by simp, by simp⟩
    · have hx' : ¬ p x = true := hx
      rw [List.find?_cons_of_neg _ hx'] at h
      obtain ⟨l1, l2, heq, hall⟩ := ih h
      refine ⟨x :: l1, l2, by simp [heq], ?_⟩
      intro b hb
      rcases List.mem_cons.1 hb with rfl | hb'
      · simpa using hx
      · exact hall b hb'

/- ### Fields of a freshly created job -/

theorem mem_newJobsOf {j : VideoJob} {text : String} {freshId : Nat → String}
    {now : Nat} (hj : j ∈ newJobsOf text freshId now) :
    j.status = JobStatus.PENDING ∧ j.createdAt = now ∧ j.videoUrl = none ∧
      j.videoBlob = none ∧ j.error = none ∧ j.completedAt = none := by
  unfold newJobsOf at hj
  obtain ⟨p, hp, rfl⟩ := List.mem_map.1 hj
  exact ⟨rfl, rfl, rfl, rfl, rfl, rfl⟩

/- ### Preservation of the invariant by every operation -/

theorem inv_init : Inv initState := by
  constructor <;> simp [initState]

theorem inv_setReady (b : Bool) {s : AppState} (h : Inv s) :
    Inv (setApiKeyReady b s) :=
  ⟨h.nodup, h.created_le, h.completed_ok, h.failed_ok, h.proc_inflight,
    h.ref_inflight⟩

theorem inv_add {s : AppState} (text : String) (freshId : Nat → String)
    (now : Nat) (h : Inv s) (hclock : s.clock ≤ now)
    (hnodup : ((newJobsOf text freshId now).map (fun j => j.id)).Nodup)
    (hfresh : ∀ i ∈ (newJobsOf text freshId now).map (fun j => j.id),
      i ∉ s.jobs.map (fun j => j.id)) :
    Inv (handleAddJobs text freshId now s) := by
  unfold handleAddJobs
  split
  · exact h
  · constructor
    · simp only [List.map_append]
      rw [List.nodup_append]
      exact ⟨h.nodup, hnodup, fun i hi hi2 => hfresh i hi2 hi⟩
    · intro j hj
      rcases List.mem_append.1 hj with hj | hj
      · exact le_trans (h.created_le j hj) hclock
      · have := (mem_newJobsOf hj).2.1
        simp [this]
    · intro j hj hst
      rcases List.mem_append.1 hj with hj | hj
      · exact h.completed_ok j hj hst
      · rw [(mem_newJobsOf hj).1] at hst
        cases hst
    · intro j hj hst
      rcases List.mem_append.1 hj with hj | hj
      · exact h.failed_ok j hj hst
      · rw [(mem_newJobsOf hj).1] at hst
        cases hst
    · intro j hj hst
      rcases List.mem_append.1 hj with hj | hj
      · exact h.proc_inflight j hj hst
      · rw [(mem_newJobsOf hj).1] at hst
        cases hst
    · exact h.ref_inflight

theorem inv_retry {s : AppState} (id : String) (h : Inv s) : Inv (retryJob id s) := by
  have hjobs : (retryJob id s).jobs =
      updateJob id (fun j => { j with status := JobStatus.PENDING, error := none })
        s.jobs := rfl
  constructor
  · rw [hjobs, updateJob_map_id id
      (fun j => { j with status := JobStatus.PENDING, error := none })
      (fun j => rfl)]
    exact h.nodup
  · intro j hj
    rw [hjobs] at hj
    obtain ⟨k, hk, hcase⟩ := mem_updateJob hj
    rcases hcase with ⟨hb, heq⟩ | ⟨hb, heq⟩ <;> subst heq
    · exact h.created_le k hk
    · exact h.created_le _ hk
  · intro j hj hst
    rw [hjobs] at hj
    obtain ⟨k, hk, hcase⟩ := mem_updateJob hj
    rcases hcase with ⟨hb, heq⟩ | ⟨hb, heq⟩ <;> subst heq
    · cases hst
    · exact h.completed_ok _ hk hst
  · intro j hj hst
    rw [hjobs] at hj
    obtain ⟨k, hk, hcase⟩ := mem_updateJob hj
    rcases hcase with ⟨hb, heq⟩ | ⟨hb, heq⟩ <;> subst heq
    · cases hst
    · exact h.failed_ok _ hk hst
  · intro j hj hst
    rw [hjobs] at hj
    obtain ⟨k, hk, hcase⟩ := mem_updateJob hj
    rcases hcase with ⟨hb, heq⟩ | ⟨hb, heq⟩ <;> subst heq
    · cases hst
    · exact h.proc_inflight _ hk hst
  · exact h.ref_inflight

theorem inv_del {s : AppState} (id : String) (h : Inv s) : Inv (deleteJob id s) := by
  have hsub : List.Sublist (deleteJob id s).jobs s.jobs := List.filter_sublist s.jobs
  constructor
  · exact List.Nodup.sublist (List.Sublist.map _ hsub) h.nodup
  · exact fun j hj => h.created_le j (hsub.mem hj)
  · exact fun j hj => h.completed_ok j (hsub.mem hj)
  · exact fun j hj => h.failed_ok j (hsub.mem hj)
  · exact fun j hj => h.proc_inflight j (hsub.mem hj)
  · exact h.ref_inflight

theorem inv_clear {s : AppState} (h : Inv s) : Inv (clearAll s) := by
  constructor <;> simp [clearAll]
  exact h.ref_inflight

theorem inv_trigger {s : AppState} (snapJobs : List VideoJob) (snapReady : Bool)
    (h : Inv s) : Inv (trigger snapJobs snapReady s).1 := by
  unfold trigger
  by_cases href : s.processingRef = true
  · rw [if_pos href]
    exact h
  · rw [if_neg href]
    have href' : s.processingRef = false := by
      cases hb : s.processingRef
      · rfl
      · exact absurd hb href
    have hinf : s.inflight = none := by
      have hri := h.ref_inflight
      rw [href'] at hri
      cases hi : s.inflight
      · rfl
      · rw [hi] at hri; cases hri
    have hnoproc : ∀ j ∈ s.jobs, ¬ j.status = JobStatus.PROCESSING := by
      intro j hj hst
      obtain ⟨p, hp⟩ := h.proc_inflight j hj hst
      rw [hinf] at hp
      cases hp
    cases hfind : snapJobs.find? pendingP with
    | none =>
      exact ⟨h.nodup, h.created_le, h.completed_ok, h.failed_ok,
        h.proc_inflight, h.ref_inflight⟩
    | some job =>
      dsimp only
      by_cases hready : snapReady = true
      · rw [if_pos hready]
        have hjobs : markProcessing job.id s.jobs =
            updateJob job.id (fun j => { j with status := JobStatus.PROCESSING })
              s.jobs := rfl
        constructor
        · rw [hjobs, updateJob_map_id job.id
            (fun j => { j with status := JobStatus.PROCESSING }) (fun j => rfl)]
          exact h.nodup
        · intro j hj
          rw [hjobs] at hj
          obtain ⟨k, hk, hcase⟩ := mem_updateJob hj
          rcases hcase with ⟨hb, heq⟩ | ⟨hb, heq⟩ <;> subst heq
          · exact h.created_le k hk
          · exact h.created_le _ hk
        · intro j hj hst
          rw [hjobs] at hj
          obtain ⟨k, hk, hcase⟩ := mem_updateJob hj
          rcases hcase with ⟨hb, heq⟩ | ⟨hb, heq⟩ <;> subst heq
          · cases hst
          · exact h.completed_ok _ hk hst
        · intro j hj hst
          rw [hjobs] at hj
          obtain ⟨k, hk, hcase⟩ := mem_updateJob hj
          rcases hcase with ⟨hb, heq⟩ | ⟨hb, heq⟩ <;> subst heq
          · cases hst
          · exact h.failed_ok _ hk hst
        · intro j hj hst
          rw [hjobs] at hj
          obtain ⟨k, hk, hcase⟩ := mem_updateJob hj
          rcases hcase with ⟨hb, heq⟩ | ⟨hb, heq⟩ <;> subst heq
          · exact ⟨job.prompt, by simp [beq_iff_eq.mp hb]⟩
          · exact absurd hst (hnoproc _ hk)
        · rfl
      · rw [if_neg hready]
        have hcomp : markFailed job.id "API Key not connected"
            (markProcessing job.id s.jobs) =
            updateJob job.id
              (fun j => { j with
                status := JobStatus.FAILED
                error := some "API Key not connected" }) s.jobs := by
          unfold markFailed markProcessing
          rw [updateJob_updateJob job.id
            (fun j => { j with
              status := JobStatus.FAILED
              error := some "API Key not connected" })
            (fun j => { j with status := JobStatus.PROCESSING })
            (fun j => rfl) s.jobs]
        constructor
        · rw [hcomp, updateJob_map_id job.id
            (fun j => { j with
              status := JobStatus.FAILED
              error := some "API Key not connected" }) (fun j => rfl)]
          exact h.nodup
        · intro j hj
          rw [hcomp] at hj
          obtain ⟨k, hk, hcase⟩ := mem_updateJob hj
          rcases hcase with ⟨hb, heq⟩ | ⟨hb, heq⟩ <;> subst heq
          · exact h.created_le k hk
          · exact h.created_le _ hk
        · intro j hj hst
          rw [hcomp] at hj
          obtain ⟨k, hk, hcase⟩ := mem_updateJob hj
          rcases hcase with ⟨hb, heq⟩ | ⟨hb, heq⟩ <;> subst heq
          · cases hst
          · exact h.completed_ok _ hk hst
        · intro j hj hst
          rw [hcomp] at hj
          obtain ⟨k, hk, hcase⟩ := mem_updateJob hj
          rcases hcase with ⟨hb, heq⟩ | ⟨hb, heq⟩ <;> subst heq
          · exact rfl
          · exact h.failed_ok _ hk hst
        · intro j hj hst
          rw [hcomp] at hj
          obtain ⟨k, hk, hcase⟩ := mem_updateJob hj
          rcases hcase with ⟨hb, heq⟩ | ⟨hb, heq⟩ <;> subst heq
          · cases hst
          · exact absurd hst (hnoproc _ hk)
        · rw [hinf]
          rfl

theorem inv_resolve {s : AppState} (outcome : Except String GenerateVideoResult)
    (now : Nat) (h : Inv s) (hclock : s.clock ≤ now) :
    Inv (resolve outcome now s).1 := by
  unfold resolve
  cases hinf : s.inflight with
  | none => exact h
  | some pr =>
    obtain ⟨id, p⟩ := pr
    have hid : ∀ k ∈ s.jobs, k.status = JobStatus.PROCESSING → k.id = id := by
      intro k hk hst
      obtain ⟨q, hq⟩ := h.proc_inflight k hk hst
      rw [hinf] at hq
      injection hq with hq'
      exact (congrArg Prod.fst hq').symm
    cases outcome with
    | ok result =>
      dsimp only
      have hjobs : markCompleted id result now s.jobs =
          updateJob id (fun j => { j with
            status := JobStatus.COMPLETED
            videoUrl := some result.videoUrl
            videoBlob := some result.videoBlob
            completedAt := some now }) s.jobs := rfl
      constructor
      · rw [hjobs, updateJob_map_id id (fun j => { j with
          status := JobStatus.COMPLETED
          videoUrl := some result.videoUrl
          videoBlob := some result.videoBlob
          completedAt := some now }) (fun j => rfl)]
        exact h.nodup
      · intro j hj
        rw [hjobs] at hj
        obtain ⟨k, hk, hcase⟩ := mem_updateJob hj
        rcases hcase with ⟨hb, heq⟩ | ⟨hb, heq⟩ <;> subst heq
        · exact le_trans (h.created_le k hk) hclock
        · exact le_trans (h.created_le _ hk) hclock
      · intro j hj hst
        rw [hjobs] at hj
        obtain ⟨k, hk, hcase⟩ := mem_updateJob hj
        rcases hcase with ⟨hb, heq⟩ | ⟨hb, heq⟩ <;> subst heq
        · exact ⟨rfl, rfl, now, rfl, le_trans (h.created_le k hk) hclock⟩
        · exact h.completed_ok _ hk hst
      · intro j hj hst
        rw [hjobs] at hj
        obtain ⟨k, hk, hcase⟩ := mem_updateJob hj
        rcases hcase with ⟨hb, heq⟩ | ⟨hb, heq⟩ <;> subst heq
        · cases hst
        · exact h.failed_ok _ hk hst
      · intro j hj hst
        rw [hjobs] at hj
        obtain ⟨k, hk, hcase⟩ := mem_updateJob hj
        rcases hcase with ⟨hb, heq⟩ | ⟨hb, heq⟩ <;> subst heq
        · cases hst
        · exact absurd (beq_iff_eq.mpr (hid _ hk hst)) (by rw [hb]; exact Bool.false_ne_true)
      · rfl
    | error msg =>
      dsimp only
      have hjobs : markFailed id (if msg = "" then "Generation failed" else msg)
          s.jobs =
          updateJob id (fun j => { j with
            status := JobStatus.FAILED
            error := some (if msg = "" then "Generation failed" else msg) })
            s.jobs := rfl
      constructor
      · rw [hjobs, updateJob_map_id id (fun j => { j with
          status := JobStatus.FAILED
          error := some (if msg = "" then "Generation failed" else msg) })
          (fun j => rfl)]
        exact h.nodup
      · intro j hj
        rw [hjobs] at hj
        obtain ⟨k, hk, hcase⟩ := mem_updateJob hj
        rcases hcase with ⟨hb, heq⟩ | ⟨hb, heq⟩ <;> subst heq
        · exact h.created_le k hk
        · exact h.created_le _ hk
      · intro j hj hst
        rw [hjobs] at hj
        obtain ⟨k, hk, hcase⟩ := mem_updateJob hj
        rcases hcase with ⟨hb, heq⟩ | ⟨hb, heq⟩ <;> subst heq
        · cases hst
        · exact h.completed_ok _ hk hst
      · intro j hj hst
        rw [hjobs] at hj
        obtain ⟨k, hk, hcase⟩ := mem_updateJob hj
        rcases hcase with ⟨hb, heq⟩ | ⟨hb, heq⟩ <;> subst heq
        · exact rfl
        · exact h.failed_ok _ hk hst
      · intro j hj hst
        rw [hjobs] at hj
        obtain ⟨k, hk, hcase⟩ := mem_updateJob hj
        rcases hcase with ⟨hb, heq⟩ | ⟨hb, heq⟩ <;> subst heq
        · cases hst
        · exact absurd (beq_iff_eq.mpr (hid _ hk hst)) (by rw [hb]; exact Bool.false_ne_true)
      · rfl

/-- Every reachable state satisfies the invariant. -/
theorem reach_inv {s : AppState} (h : Reach s) : Inv s := by
  induction h with
  | init => exact inv_init
  | setReady b _ ih => exact inv_setReady b ih
  | add text freshId now _ hclock hnodup hfresh ih =>
    exact inv_add text freshId now ih hclock hnodup hfresh
  | retry id _ ih => exact inv_retry id ih
  | del id _ ih => exact inv_del id ih
  | clear _ ih => exact inv_clear ih
  | trig snapJobs snapReady _ ih => exact inv_trigger snapJobs snapReady ih
  | res outcome now _ hclock ih => exact inv_resolve outcome now ih hclock

/- ### At most one job is PROCESSING -/

theorem nodup_const_length_le_one {α : Type} {m : List α} {a : α}
    (hn : m.Nodup) (hall : ∀ x ∈ m, x = a) : m.length ≤ 1 := by
  cases m with
  | nil => simp
  | cons x t =>
    cases t with
    | nil => simp
    | cons y u =>
      exfalso
      have hx := hall x (by simp)
      have hy := hall y (by simp)
      rw [List.nodup_cons] at hn
      exact hn.1 ((hx.trans hy.symm) ▸ List.mem_cons_self y u)

theorem inv_processing_count {s : AppState} (h : Inv s) :
    s.jobs.countP (fun j => j.status == JobStatus.PROCESSING) ≤ 1 := by
  rw [List.countP_eq_length_filter]
  have hmem : ∀ x ∈ s.jobs.filter (fun j => j.status == JobStatus.PROCESSING),
      x.status = JobStatus.PROCESSING := by
    intro x hx
    have hpx := List.of_mem_filter hx
    exact beq_iff_eq.mp hpx
  cases hinf : s.inflight with
  | none =>
    have hnil : s.jobs.filter (fun j => j.status == JobStatus.PROCESSING) = [] := by
      rw [List.filter_eq_nil_iff]
      intro x hx hpx
      obtain ⟨p, hp⟩ := h.proc_inflight x hx (beq_iff_eq.mp hpx)
      rw [hinf] at hp
      cases hp
    simp [hnil]
  | some pr =>
    obtain ⟨i0, p0⟩ := pr
    have hids : ∀ y ∈ (s.jobs.filter
        (fun j => j.status == JobStatus.PROCESSING)).map (fun j => j.id),
        y = i0 := by
      intro y hy
      obtain ⟨x, hx, rfl⟩ := List.mem_map.1 hy
      obtain ⟨q, hq⟩ := h.proc_inflight x (List.mem_of_mem_filter hx) (hmem x hx)
      rw [hinf] at hq
      injection hq with hq'
      exact (congrArg Prod.fst hq').symm
    have hnd : ((s.jobs.filter
        (fun j => j.status == JobStatus.PROCESSING)).map (fun j => j.id)).Nodup :=
      List.Nodup.sublist (List.Sublist.map _ (List.filter_sublist s.jobs)) h.nodup
    have hlen := nodup_const_length_le_one hnd hids
    rw [List.length_map] at hlen
    exact hlen

/- ### Reachability of the concrete stale-requeue trace -/

theorem reach_exAdded : Reach exAdded :=
  Reach.add "a cat" (fun _ => "id0") 5 (Reach.setReady true Reach.init)
    (by decide) (by decide) (by decide)

theorem reach_exLaunched : Reach exLaunched :=
  Reach.trig exAdded.jobs true reach_exAdded

theorem reach_staleFail : Reach staleFail :=
  Reach.res (Except.error "boom") 6 reach_exLaunched (by decide)

theorem reach_staleRelaunch : Reach staleRelaunch :=
  Reach.trig exAdded.jobs true reach_staleFail

theorem reach_staleCompleted : Reach staleCompleted :=
  Reach.res (Except.ok { videoUrl := "blob:video", videoBlob := 0 }) 7
    reach_staleRelaunch (by decide)

theorem reach_staleRelaunch2 : Reach staleRelaunch2 :=
  Reach.trig exAdded.jobs true reach_staleCompleted

theorem reach_staleFailed2 : Reach staleFailed2 :=
  Reach.res (Except.error "boom again") 8 reach_staleRelaunch2 (by decide)

/- ### Basic runs of the drain -/

/-- Entering processQueue while the busy ref is set returns at once. -/
theorem processQueue_busy {s : AppState}
    (client : String → Except String GenerateVideoResult) (now : Nat)
    (snapJobs : List VideoJob) (snapReady : Bool) (fuel : Nat)
    (href : s.processingRef = true) :
    processQueue client now snapJobs snapReady fuel s = (s, []) := by
  cases fuel with
  | zero => rfl
  | succ f =>
    unfold processQueue
    rw [if_pos href]

/-- Entering processQueue when the snapshot has no PENDING job only clears the
isProcessing flag. -/
theorem processQueue_idle {s : AppState}
    (client : String → Except String GenerateVideoResult) (now : Nat)
    (snapJobs : List VideoJob) (snapReady : Bool) (fuel : Nat)
    (hfind : snapJobs.find? pendingP = none) :
    processQueue client now snapJobs snapReady fuel s = (s, [])
    ∨ processQueue client now snapJobs snapReady fuel s
        = ({ s with isProcessing := false }, []) := by
  cases fuel with
  | zero => exact Or.inl rfl
  | succ f =>
    unfold processQueue
    by_cases href : s.processingRef = true
    · rw [if_pos href]
      exact Or.inl rfl
    · rw [if_neg href, hfind]
      exact Or.inr rfl

/-- With the readiness flag false, one iteration of the drain fails the job
selected from the snapshot and leaves the state otherwise untouched; the stale
recursion then reproduces the same state for ever, one precondition failure
event per iteration, never invoking the client. -/
theorem processQueue_not_ready_fix
    (client : String → Except String GenerateVideoResult) (now : Nat)
    (snapJobs : List VideoJob) (j : VideoJob)
    (hfind : snapJobs.find? pendingP = some j) :
    ∀ (fuel : Nat) (u : AppState), u.processingRef = false → u.isProcessing = true →
      updateJob j.id (fun x => { x with
        status := JobStatus.FAILED
        error := some "API Key not connected" }) u.jobs = u.jobs →
      processQueue client now snapJobs false fuel u
        = (u, List.replicate fuel (Ev.failed j.id "API Key not connected")) := by
  intro fuel
  induction fuel with
  | zero =>
    intro u _ _ _
    rfl
  | succ f ih =>
    intro u href hproc hfix
    unfold processQueue
    rw [if_neg (by rw [href]; exact Bool.false_ne_true), hfind]
    dsimp only
    rw [if_neg Bool.false_ne_true]
    have hcomp : markFailed j.id "API Key not connected" (markProcessing j.id u.jobs)
        = updateJob j.id (fun x => { x with
            status := JobStatus.FAILED
            error := some "API Key not connected" }) u.jobs := by
      unfold markFailed markProcessing
      rw [updateJob_updateJob j.id
        (fun x => { x with
          status := JobStatus.FAILED
          error := some "API Key not connected" })
        (fun x => { x with status := JobStatus.PROCESSING })
        (fun x => rfl) u.jobs]
    have hs2 : ({ u with
        processingRef := false
        isProcessing := true
        jobs := markFailed j.id "API Key not connected"
          (markProcessing j.id u.jobs) } : AppState) = u := by
      rw [hcomp, hfix, ← href, ← hproc]
    rw [hs2, ih u href hproc hfix, List.replicate_succ]

/- ### Lemmas about the JavaScript string primitives -/

theorem mem_takeWhile_pred {α : Type} {p : α → Bool} :
    ∀ {l : List α} {c : α}, c ∈ l.takeWhile p → p c = true := by
  intro l
  induction l with
  | nil => intro c h; cases h
  | cons a t ih =>
    intro c h
    by_cases ha : p a = true
    · rw [List.takeWhile_cons_of_pos ha] at h
      rcases List.mem_cons.1 h with rfl | hmem
      · exact ha
      · exact ih hmem
    · rw [List.takeWhile_cons_of_neg ha] at h
      cases h

theorem trimChars_eq_nil_iff {l : List Char} :
    trimChars l = [] ↔ ∀ c ∈ l, c.isWhitespace = true := by
  unfold trimChars
  constructor
  · intro h c hc
    rw [List.reverse_eq_nil_iff, List.dropWhile_eq_nil_iff] at h
    have hsplit := List.takeWhile_append_dropWhile
      (p := Char.isWhitespace) (l := l)
    rw [← hsplit] at hc
    rcases List.mem_append.1 hc with hc1 | hc2
    · exact mem_takeWhile_pred hc1
    · exact h c (List.mem_reverse.2 hc2)
  · intro h
    have h1 : l.dropWhile Char.isWhitespace = [] :=
      List.dropWhile_eq_nil_iff.mpr fun c hc => h c hc
    rw [h1]
    rfl

theorem asString_eq_empty_iff {l : List Char} : l.asString = "" ↔ l = [] := by
  constructor
  · intro h
    have h2 := congrArg String.toList h
    simpa using h2
  · intro h
    rw [h]
    rfl

theorem splitNlChars_mem_subset :
    ∀ (l : List Char), ∀ t ∈ splitNlChars l, ∀ c ∈ t, c ∈ l := by
  intro l
  induction l with
  | nil =>
    intro t ht c hc
    unfold splitNlChars at ht
    rw [List.mem_singleton] at ht
    subst ht
    cases hc
  | cons a u ih =>
    intro t ht c hc
    unfold splitNlChars at ht
    by_cases ha : a = (Char.ofNat 10)
    · rw [if_pos ha] at ht
      rcases List.mem_cons.1 ht with rfl | ht2
      · cases hc
      · exact List.mem_cons_of_mem a (ih t ht2 c hc)
    · rw [if_neg ha] at ht
      cases hsplit : splitNlChars u with
      | nil =>
        rw [hsplit, List.mem_singleton] at ht
        subst ht
        rcases List.mem_cons.1 hc with rfl | hc2
        · exact List.mem_cons_self c u
        · cases hc2
      | cons t0 ts =>
        rw [hsplit] at ht
        rcases List.mem_cons.1 ht with rfl | ht2
        · rcases List.mem_cons.1 hc with rfl | hc2
          · exact List.mem_cons_self c u
          · exact List.mem_cons_of_mem a
              (ih t0 (by rw [hsplit]; exact List.mem_cons_self t0 ts) c hc2)
        · exact List.mem_cons_of_mem a
            (ih t (by rw [hsplit]; exact List.mem_cons_of_mem t0 ht2) c hc)

theorem jsTrim_eq_empty_iff {s : String} :
    jsTrim s = "" ↔ ∀ c ∈ s.toList, c.isWhitespace = true := by
  unfold jsTrim
  rw [asString_eq_empty_iff, trimChars_eq_nil_iff]

/-- Every line of an all-whitespace input trims to the empty string: the early
return of handleAddJobs skips exactly inputs that would create no job. -/
theorem nonEmptyLines_of_blank {text : String} (h : jsTrim text = "") :
    nonEmptyLines text = [] := by
  unfold nonEmptyLines
  rw [List.filter_eq_nil_iff]
  intro line hline hpos
  unfold jsSplitNl at hline
  obtain ⟨t, ht, rfl⟩ := List.mem_map.1 hline
  have hall := jsTrim_eq_empty_iff.mp h
  have hsub := splitNlChars_mem_subset text.toList t ht
  have htrim : jsTrim t.asString = "" := by
    unfold jsTrim
    rw [asString_eq_empty_iff]
    show trimChars t = []
    rw [trimChars_eq_nil_iff]
    intro c hc
    exact hall c (hsub c hc)
  rw [htrim] at hpos
  simp at hpos

/- ### Shape of a created batch -/

theorem enumFrom_map_of_snd {α β : Type} (f : α → β) :
    ∀ (L : List α) (n : Nat), (L.enumFrom n).map (fun p => f p.2) = L.map f := by
  intro L
  induction L with
  | nil => intro n; rfl
  | cons a t ih =>
    intro n
    simp only [List.enumFrom, List.map_cons]
    rw [ih]

theorem newJobsOf_map_prompt (text : String) (freshId : Nat → String) (now : Nat) :
    (newJobsOf text freshId now).map (fun j => j.prompt)
      = (nonEmptyLines text).map jsTrim := by
  unfold newJobsOf
  rw [List.map_map]
  exact enumFrom_map_of_snd jsTrim (nonEmptyLines text) 0

theorem newJobsOf_map_status (text : String) (freshId : Nat → String) (now : Nat) :
    (newJobsOf text freshId now).map (fun j => j.status)
      = List.replicate (nonEmptyLines text).length JobStatus.PENDING := by
  unfold newJobsOf
  rw [List.map_map]
  have h1 : ((nonEmptyLines text).enumFrom 0).map
      (fun p => (fun _ => JobStatus.PENDING) p.2)
      = (nonEmptyLines text).map (fun _ => JobStatus.PENDING) :=
    enumFrom_map_of_snd (fun _ => JobStatus.PENDING) (nonEmptyLines text) 0
  rw [show ((nonEmptyLines text).enum.map
      ((fun j => j.status) ∘ fun p =>
        ({ id := freshId p.1, prompt := jsTrim p.2, status := JobStatus.PENDING,
           createdAt := now } : VideoJob)))
      = (nonEmptyLines text).map (fun _ => JobStatus.PENDING) from h1]
  exact List.map_const' (nonEmptyLines text) JobStatus.PENDING

theorem newJobsOf_length (text : String) (freshId : Nat → String) (now : Nat) :
    (newJobsOf text freshId now).length = (nonEmptyLines text).length := by
  unfold newJobsOf
  rw [List.length_map, List.enum_length]

/- ### The claims -/

/-- Claim C1: at every reachable state at most one job in the store has status
PROCESSING (and the ghost inflight option carries at most one call by type),
and entering processQueue while a previous drain is still running returns at
once under the re-entrancy guard: the state is unchanged and no job is
selected and no client call is made, both for a single entry and for the
fuelled drain. -/
theorem processing_single_flight (s : AppState) (snapJobs : List VideoJob)
    (snapReady : Bool) (client : String → Except String GenerateVideoResult)
    (now fuel : Nat) (hs : Reach s) :
    s.jobs.countP (fun j => j.status == JobStatus.PROCESSING) ≤ 1
    ∧ (s.processingRef = true →
        trigger snapJobs snapReady s = (s, [])
        ∧ processQueue client now snapJobs snapReady fuel s = (s, [])) := by
  refine ⟨inv_processing_count (reach_inv hs), fun href => ⟨?_,
    processQueue_busy client now snapJobs snapReady fuel href⟩⟩
  unfold trigger
  rw [if_pos href]

/-- Witness for C1 at a concrete reachable state whose busy ref is set. -/
theorem processing_single_flight_witness :
    exLaunched.jobs.countP (fun j => j.status == JobStatus.PROCESSING) ≤ 1
    ∧ (exLaunched.processingRef = true →
        trigger [] false exLaunched = (exLaunched, [])
        ∧ processQueue exOkClient 0 [] false 3 exLaunched = (exLaunched, [])) :=
  processing_single_flight exLaunched [] false exOkClient 0 3 reach_exLaunched

/-- Claim C2 (code bug): when the remote call inside generateVideoWithVeo
raises an error whose message contains the session-invalid marker, the wrapper
replaces it with sessionInvalidMessage, which does not contain the marker; the
marker check of App.tsx line 98 therefore never matches, so after the job
fails the readiness flag is still true instead of false as the claim
requires.  Evaluated on a store with pending jobs and a client whose remote
try block always raises the marker message. -/
theorem session_invalid_signal_lost :
    generateVideoWithVeo (RawOutcome.failure entityNotFoundMarker)
      = Except.error sessionInvalidMessage
    ∧ includesStr entityNotFoundMarker sessionInvalidMessage = false
    ∧ (processQueue exSessionClient 5 exOrderState.jobs exOrderState.apiKeyReady
        1 exOrderState).1.apiKeyReady = true
    ∧ (∃ ja ∈ (processQueue exSessionClient 5 exOrderState.jobs
        exOrderState.apiKeyReady 1 exOrderState).1.jobs,
        ja.id = "a" ∧ ja.status = JobStatus.FAILED
          ∧ ja.error = some sessionInvalidMessage) := by
  refine ⟨rfl, by decide, by decide, by decide⟩

/-- Claim C3 (code bug): with jobs A, B, C all PENDING and a client that
always succeeds, the drain does not complete them in order A, B, C each once:
the recursive call of the finally block re-reads the stale closure snapshot in
which A is still PENDING, so A is selected and generated again on every pass
while B and C are never admitted.  Three iterations produce three calls for A
and leave B and C PENDING. -/
theorem fifo_order_stale_requeue :
    (processQueue exOkClient 9 exOrderState.jobs exOrderState.apiKeyReady
        3 exOrderState).2
      = [Ev.call "a" "alpha", Ev.completed "a", Ev.call "a" "alpha",
         Ev.completed "a", Ev.call "a" "alpha", Ev.completed "a"]
    ∧ (∃ jb ∈ (processQueue exOkClient 9 exOrderState.jobs
        exOrderState.apiKeyReady 3 exOrderState).1.jobs,
        jb.id = "b" ∧ jb.status = JobStatus.PENDING)
    ∧ (∃ jc ∈ (processQueue exOkClient 9 exOrderState.jobs
        exOrderState.apiKeyReady 3 exOrderState).1.jobs,
        jc.id = "c" ∧ jc.status = JobStatus.PENDING) := by
  refine ⟨by decide, by decide, by decide⟩

/-- Claim C4: with the readiness flag false and a PENDING job in the store,
the drain fails that job with the precondition message "API Key not connected"
and never invokes the client: the final store is the precondition-failure
update of the original and every emitted event is the precondition failure
for that job (no call event, for any amount of fuel). -/
theorem not_ready_fails_without_call (s : AppState)
    (client : String → Except String GenerateVideoResult) (now fuel : Nat)
    (j : VideoJob) (hready : s.apiKeyReady = false)
    (href : s.processingRef = false)
    (hfind : s.jobs.find? pendingP = some j) :
    (processQueue client now s.jobs s.apiKeyReady (fuel + 1) s).1.jobs
      = updateJob j.id (fun x => { x with
          status := JobStatus.FAILED
          error := some "API Key not connected" }) s.jobs
    ∧ { j with status := JobStatus.FAILED, error := some "API Key not connected" }
        ∈ (processQueue client now s.jobs s.apiKeyReady (fuel + 1) s).1.jobs
    ∧ (processQueue client now s.jobs s.apiKeyReady (fuel + 1) s).2
        = List.replicate (fuel + 1) (Ev.failed j.id "API Key not connected") := by
  rw [hready]
  unfold processQueue
  rw [if_neg (by rw [href]; exact Bool.false_ne_true), hfind]
  dsimp only
  rw [if_neg Bool.false_ne_true]
  have hcomp : markFailed j.id "API Key not connected" (markProcessing j.id s.jobs)
      = updateJob j.id (fun x => { x with
          status := JobStatus.FAILED
          error := some "API Key not connected" }) s.jobs := by
    unfold markFailed markProcessing
    rw [updateJob_updateJob j.id
      (fun x => { x with
        status := JobStatus.FAILED
        error := some "API Key not connected" })
      (fun x => { x with status := JobStatus.PROCESSING })
      (fun x => rfl) s.jobs]
  have hfix : updateJob j.id (fun x => { x with
      status := JobStatus.FAILED
      error := some "API Key not connected" })
      (updateJob j.id (fun x => { x with
        status := JobStatus.FAILED
        error := some "API Key not connected" }) s.jobs)
      = updateJob j.id (fun x => { x with
          status := JobStatus.FAILED
          error := some "API Key not connected" }) s.jobs := by
    rw [updateJob_updateJob j.id
      (fun x => { x with
        status := JobStatus.FAILED
        error := some "API Key not connected" })
      (fun x => { x with
        status := JobStatus.FAILED
        error := some "API Key not connected" })
      (fun x => rfl) s.jobs]
  rw [hcomp]
  rw [processQueue_not_ready_fix client now s.jobs j hfind fuel
    { s with
      processingRef := false
      isProcessing := true
      jobs := updateJob j.id (fun x => { x with
        status := JobStatus.FAILED
        error := some "API Key not connected" }) s.jobs } rfl rfl hfix]
  refine ⟨rfl, ?_, ?_⟩
  · have hjm := List.mem_of_find?_eq_some hfind
    have hmem := updateJob_mem_of_mem j.id (fun x => { x with
      status := JobStatus.FAILED
      error := some "API Key not connected" }) hjm
    rw [if_pos (by simp : (j.id == j.id) = true)] at hmem
    exact hmem
  · rw [List.replicate_succ]

/-- Witness for C4 at a concrete disconnected store with one PENDING job. -/
theorem not_ready_fails_without_call_witness :
    (processQueue exOkClient 2 exNotReadyState.jobs exNotReadyState.apiKeyReady
        (1 + 1) exNotReadyState).1.jobs
      = updateJob "n" (fun x => { x with
          status := JobStatus.FAILED
          error := some "API Key not connected" }) exNotReadyState.jobs
    ∧ { exNotReadyJob with
        status := JobStatus.FAILED
        error := some "API Key not connected" }
        ∈ (processQueue exOkClient 2 exNotReadyState.jobs
            exNotReadyState.apiKeyReady (1 + 1) exNotReadyState).1.jobs
    ∧ (processQueue exOkClient 2 exNotReadyState.jobs
        exNotReadyState.apiKeyReady (1 + 1) exNotReadyState).2
        = List.replicate (1 + 1) (Ev.failed "n" "API Key not connected") :=
  not_ready_fails_without_call exNotReadyState exOkClient 2 1 exNotReadyJob
    rfl rfl (by decide)

/-- Claim C5 (counterexample): two reachable states violate the claimed
terminal-state invariant.  In staleCompleted, reached by a failed attempt
followed by the stale re-processing of the same job succeeding, the COMPLETED
job still carries the error of the first attempt; in staleFailed2, reached by
one further stale round that fails, the FAILED job still carries the result
reference of the successful attempt.  Both traces use only the listed
operations; the reused snapshot in the trig steps is exactly the jobs value
captured by the effect closure that the finally block re-enters. -/
theorem terminal_exclusivity_counterexample :
    Reach staleCompleted
    ∧ (∃ j ∈ staleCompleted.jobs, j.status = JobStatus.COMPLETED ∧ j.error ≠ none)
    ∧ Reach staleFailed2
    ∧ (∃ j ∈ staleFailed2.jobs, j.status = JobStatus.FAILED ∧ j.videoUrl.isSome) :=
  ⟨reach_staleCompleted, by decide, reach_staleFailed2, by decide⟩

/-- Claim C5 (amended): in every reachable state, every COMPLETED job has a
result reference (URL and payload) and a completion time not before its
creation time, and every FAILED job has an error message.  (The original
claim also required a COMPLETED job to carry no error and a FAILED job to
carry no result reference; both fail on the code, which never clears the
other field when a job that already holds one is re-processed after a retry
or after a stale re-selection.) -/
theorem terminal_fields_invariant (s : AppState) (hs : Reach s) :
    ∀ j ∈ s.jobs,
      (j.status = JobStatus.COMPLETED → j.videoUrl.isSome ∧ j.videoBlob.isSome ∧
        ∃ t, j.completedAt = some t ∧ j.createdAt ≤ t)
      ∧ (j.status = JobStatus.FAILED → j.error.isSome) := by
  intro j hj
  exact ⟨(reach_inv hs).completed_ok j hj, (reach_inv hs).failed_ok j hj⟩

/-- Witness for the amended C5: the theorem applied at the concrete reachable
state staleCompleted and its COMPLETED job. -/
theorem terminal_fields_invariant_witness :
    staleCompletedJob.videoUrl.isSome ∧ staleCompletedJob.videoBlob.isSome ∧
      ∃ t, staleCompletedJob.completedAt = some t
        ∧ staleCompletedJob.createdAt ≤ t :=
  (terminal_fields_invariant staleCompleted reach_staleCompleted
    staleCompletedJob (by decide)).1 rfl

/-- Claim C6: batch add appends exactly one PENDING job per non-empty trimmed
line, in line order, with the trimmed line as prompt, leaving existing jobs
unchanged; blank and whitespace-only lines (and a blank input, via the early
return) create nothing.  In particular the two-prompt example input creates
exactly the two trimmed prompts. -/
theorem add_batch_creates_pending_jobs (text : String) (freshId : Nat → String)
    (now : Nat) (s : AppState) :
    (handleAddJobs text freshId now s).jobs = s.jobs ++ newJobsOf text freshId now
    ∧ (newJobsOf text freshId now).length = (nonEmptyLines text).length
    ∧ (newJobsOf text freshId now).map (fun j => j.prompt)
        = (nonEmptyLines text).map jsTrim
    ∧ (newJobsOf text freshId now).map (fun j => j.status)
        = List.replicate (nonEmptyLines text).length JobStatus.PENDING
    ∧ nonEmptyLines "cat on a skateboard\n\nin the rain"
        = ["cat on a skateboard", "in the rain"]
    ∧ (newJobsOf "cat on a skateboard\n\nin the rain" freshId now).map
        (fun j => j.prompt) = ["cat on a skateboard", "in the rain"] := by
  refine ⟨?_, newJobsOf_length text freshId now,
    newJobsOf_map_prompt text freshId now,
    newJobsOf_map_status text freshId now, by decide, ?_⟩
  · unfold handleAddJobs
    by_cases hblank : jsTrim text = ""
    · rw [if_pos hblank]
      have hnil := nonEmptyLines_of_blank hblank
      unfold newJobsOf
      rw [hnil]
      simp
    · rw [if_neg hblank]
  · rw [newJobsOf_map_prompt]
    decide

/-- Claim C7: retrying a FAILED job resets it to PENDING with the error
cleared and the prompt kept, and the selection policy is uniform: whatever
job is first PENDING in the scanned jobs array is the one marked PROCESSING
and handed to the client with its own prompt. -/
theorem retry_requeues_failed_job (s : AppState) (id : String) (j : VideoJob)
    (t : AppState) (snap : List VideoJob) (k : VideoJob)
    (hj : j ∈ s.jobs) (hid : j.id = id) (hst : j.status = JobStatus.FAILED)
    (hnodup : (s.jobs.map (fun x => x.id)).Nodup)
    (htref : t.processingRef = false)
    (hfind : snap.find? pendingP = some k) :
    { j with status := JobStatus.PENDING, error := none } ∈ (retryJob id s).jobs
    ∧ (∀ x ∈ (retryJob id s).jobs, x.id = id →
        x.status = JobStatus.PENDING ∧ x.error = none ∧ x.prompt = j.prompt)
    ∧ (trigger snap true t).2 = [Ev.call k.id k.prompt]
    ∧ (trigger snap true t).1.inflight = some (k.id, k.prompt) := by
  have hb : (j.id == id) = true := beq_iff_eq.mpr hid
  refine ⟨?_, ?_, ?_, ?_⟩
  · have hmem := updateJob_mem_of_mem id
      (fun x => { x with status := JobStatus.PENDING, error := none }) hj
    rw [if_pos hb] at hmem
    exact hmem
  · intro x hx hxid
    obtain ⟨kk, hkk, hcase⟩ := mem_updateJob hx
    rcases hcase with ⟨hbk, heq⟩ | ⟨hbk, heq⟩
    · subst heq
      refine ⟨rfl, rfl, ?_⟩
      have hkid : kk.id = id := beq_iff_eq.mp hbk
      have hkj : kk = j :=
        List.inj_on_of_nodup_map hnodup hkk hj (by rw [hkid, hid])
      rw [hkj]
    · subst heq
      rw [hxid] at hbk
      simp at hbk
  · unfold trigger
    rw [if_neg (by rw [htref]; exact Bool.false_ne_true), hfind]
    rfl
  · unfold trigger
    rw [if_neg (by rw [htref]; exact Bool.false_ne_true), hfind]
    rfl

/-- Witness for C7: the concrete FAILED job is reset and is then exactly the
job a fresh drain entry selects and hands to the client. -/
theorem retry_requeues_failed_job_witness :
    { exFailedJob with status := JobStatus.PENDING, error := none }
        ∈ (retryJob "f" exRetryState).jobs
    ∧ (∀ x ∈ (retryJob "f" exRetryState).jobs, x.id = "f" →
        x.status = JobStatus.PENDING ∧ x.error = none
          ∧ x.prompt = exFailedJob.prompt)
    ∧ (trigger (retryJob "f" exRetryState).jobs true (retryJob "f" exRetryState)).2
        = [Ev.call ({ exFailedJob with
            status := JobStatus.PENDING, error := none } : VideoJob).id
            ({ exFailedJob with
              status := JobStatus.PENDING, error := none } : VideoJob).prompt]
    ∧ (trigger (retryJob "f" exRetryState).jobs true
        (retryJob "f" exRetryState)).1.inflight
        = some (({ exFailedJob with
            status := JobStatus.PENDING, error := none } : VideoJob).id,
          ({ exFailedJob with
            status := JobStatus.PENDING, error := none } : VideoJob).prompt) :=
  retry_requeues_failed_job exRetryState "f" exFailedJob
    (retryJob "f" exRetryState) (retryJob "f" exRetryState).jobs
    { exFailedJob with status := JobStatus.PENDING, error := none }
    (by decide) rfl rfl (by decide) rfl (by decide)

/-- Claim C8: deleting the job whose call is in flight leaves no job with that
id in the store, and when the call later settles the resolution write is a
no-op on the store (the model is total, so nothing is raised); in general a
status update keyed by an id not present in the store leaves it unchanged. -/
theorem stale_update_noop (s : AppState) (id p : String)
    (outcome : Except String GenerateVideoResult) (now : Nat)
    (tgt : String) (g : VideoJob → VideoJob) (l : List VideoJob)
    (hin : s.inflight = some (id, p))
    (hl : ∀ x ∈ l, x.id ≠ tgt) :
    (∀ x ∈ (deleteJob id s).jobs, x.id ≠ id)
    ∧ (resolve outcome now (deleteJob id s)).1.jobs = (deleteJob id s).jobs
    ∧ updateJob tgt g l = l := by
  have hdel : ∀ x ∈ (deleteJob id s).jobs, x.id ≠ id := by
    intro x hx
    have hxf := List.of_mem_filter hx
    simpa using hxf
  refine ⟨hdel, ?_, updateJob_not_mem tgt g l hl⟩
  unfold resolve
  rw [show (deleteJob id s).inflight = some (id, p) from hin]
  cases outcome with
  | ok result =>
    dsimp only
    exact updateJob_not_mem id (fun x => { x with
      status := JobStatus.COMPLETED
      videoUrl := some result.videoUrl
      videoBlob := some result.videoBlob
      completedAt := some now }) (deleteJob id s).jobs hdel
  | error msg =>
    dsimp only
    exact updateJob_not_mem id (fun x => { x with
      status := JobStatus.FAILED
      error := some (if msg = "" then "Generation failed" else msg) })
      (deleteJob id s).jobs hdel

/-- Witness for C8 at a concrete store whose in-flight job "a" is deleted
before its call succeeds. -/
theorem stale_update_noop_witness :
    (∀ x ∈ (deleteJob "a" exInflightState).jobs, x.id ≠ "a")
    ∧ (resolve (Except.ok { videoUrl := "blob:w", videoBlob := 0 }) 4
        (deleteJob "a" exInflightState)).1.jobs = (deleteJob "a" exInflightState).jobs
    ∧ updateJob "z" (fun x => x) [exJobB] = [exJobB] :=
  stale_update_noop exInflightState "a" "alpha"
    (Except.ok { videoUrl := "blob:w", videoBlob := 0 }) 4 "z" (fun x => x)
    [exJobB] rfl (by decide)

/-- Claim C9: entering processQueue while the busy ref is set, or when the
entry snapshot has no PENDING job, changes no job and makes no client call,
and a repeated entry from the resulting state does the same. -/
theorem trigger_idempotent_noop (s : AppState)
    (client client2 : String → Except String GenerateVideoResult)
    (now now2 fuel fuel2 : Nat)
    (h : s.processingRef = true ∨ ∀ j ∈ s.jobs, ¬ j.status = JobStatus.PENDING) :
    (processQueue client now s.jobs s.apiKeyReady fuel s).1.jobs = s.jobs
    ∧ (processQueue client now s.jobs s.apiKeyReady fuel s).2 = []
    ∧ (processQueue client2 now2
        (processQueue client now s.jobs s.apiKeyReady fuel s).1.jobs
        (processQueue client now s.jobs s.apiKeyReady fuel s).1.apiKeyReady
        fuel2
        (processQueue client now s.jobs s.apiKeyReady fuel s).1).1.jobs = s.jobs
    ∧ (processQueue client2 now2
        (processQueue client now s.jobs s.apiKeyReady fuel s).1.jobs
        (processQueue client now s.jobs s.apiKeyReady fuel s).1.apiKeyReady
        fuel2
        (processQueue client now s.jobs s.apiKeyReady fuel s).1).2 = [] := by
  rcases h with href | hnop
  · rw [processQueue_busy client now s.jobs s.apiKeyReady fuel href]
    dsimp only
    rw [processQueue_busy client2 now2 s.jobs s.apiKeyReady fuel2 href]
    exact ⟨rfl, rfl, rfl, rfl⟩
  · have hfind : s.jobs.find? pendingP = none := by
      rw [List.find?_eq_none]
      intro x hx
      have hb := hnop x hx
      unfold pendingP
      simp only [beq_iff_eq]
      exact hb
    rcases processQueue_idle client now s.jobs s.apiKeyReady fuel hfind
      with heq | heq
    · rw [heq]
      dsimp only
      rcases processQueue_idle client2 now2 s.jobs s.apiKeyReady fuel2 hfind
        with heq2 | heq2
      · rw [heq2]
        exact ⟨rfl, rfl, rfl, rfl⟩
      · rw [heq2]
        exact ⟨rfl, rfl, rfl, rfl⟩
    · rw [heq]
      dsimp only
      rcases processQueue_idle client2 now2
        ({ s with isProcessing := false } : AppState).jobs
        ({ s with isProcessing := false } : AppState).apiKeyReady fuel2 hfind
        with heq2 | heq2
      · rw [heq2]
        exact ⟨rfl, rfl, rfl, rfl⟩
      · rw [heq2]
        exact ⟨rfl, rfl, rfl, rfl⟩

/-- Witness for C9 at a concrete connected store with one COMPLETED job and no
PENDING job. -/
theorem trigger_idempotent_noop_witness :
    (processQueue exOkClient 7 exIdleState.jobs exIdleState.apiKeyReady
        2 exIdleState).1.jobs = exIdleState.jobs
    ∧ (processQueue exOkClient 7 exIdleState.jobs exIdleState.apiKeyReady
        2 exIdleState).2 = []
    ∧ (processQueue exOkClient 8
        (processQueue exOkClient 7 exIdleState.jobs exIdleState.apiKeyReady
          2 exIdleState).1.jobs
        (processQueue exOkClient 7 exIdleState.jobs exIdleState.apiKeyReady
          2 exIdleState).1.apiKeyReady
        3
        (processQueue exOkClient 7 exIdleState.jobs exIdleState.apiKeyReady
          2 exIdleState).1).1.jobs = exIdleState.jobs
    ∧ (processQueue exOkClient 8
        (processQueue exOkClient 7 exIdleState.jobs exIdleState.apiKeyReady
          2 exIdleState).1.jobs
        (processQueue exOkClient 7 exIdleState.jobs exIdleState.apiKeyReady
          2 exIdleState).1.apiKeyReady
        3
        (processQueue exOkClient 7 exIdleState.jobs exIdleState.apiKeyReady
          2 exIdleState).1).2 = [] :=
  trigger_idempotent_noop exIdleState exOkClient exOkClient 7 8 2 3
    (Or.inr (by decide))

/-- Claim C10: retryJob matches its target by id only, whatever the current
status; the patch rewrites exactly the status and error fields and preserves
id, prompt, createdAt, videoUrl, videoBlob, completedAt and fileName, jobs
with other ids are mapped to themselves, and no other component of the state
changes.  The concrete conjuncts show a COMPLETED job being reset to PENDING
with its result reference retained. -/
theorem retry_matches_any_id_frame (id : String) (s : AppState) (x : VideoJob) :
    (retryJob id s).jobs = s.jobs.map
      (fun j => if j.id == id then
        { j with status := JobStatus.PENDING, error := none } else j)
    ∧ (retryJob id s).apiKeyReady = s.apiKeyReady
    ∧ (retryJob id s).processingRef = s.processingRef
    ∧ (retryJob id s).isProcessing = s.isProcessing
    ∧ (retryJob id s).inflight = s.inflight
    ∧ (retryJob id s).clock = s.clock
    ∧ ({ x with status := JobStatus.PENDING, error := none }).id = x.id
    ∧ ({ x with status := JobStatus.PENDING, error := none }).prompt = x.prompt
    ∧ ({ x with status := JobStatus.PENDING, error := none }).createdAt = x.createdAt
    ∧ ({ x with status := JobStatus.PENDING, error := none }).videoUrl = x.videoUrl
    ∧ ({ x with status := JobStatus.PENDING, error := none }).videoBlob = x.videoBlob
    ∧ ({ x with status := JobStatus.PENDING, error := none }).completedAt = x.completedAt
    ∧ ({ x with status := JobStatus.PENDING, error := none }).fileName = x.fileName
    ∧ ({ x with status := JobStatus.PENDING, error := none }).status = JobStatus.PENDING
    ∧ ({ x with status := JobStatus.PENDING, error := none }).error = none
    ∧ (retryJob "d" exIdleState).jobs.map (fun j => j.status) = [JobStatus.PENDING]
    ∧ (retryJob "d" exIdleState).jobs.map (fun j => j.error) = [none]
    ∧ (retryJob "d" exIdleState).jobs.map (fun j => j.videoUrl) = [some "blob:d"] :=
  ⟨rfl, rfl, rfl, rfl, rfl, rfl, rfl, rfl, rfl, rfl, rfl, rfl, rfl, rfl, rfl,
    by decide, by decide, by decide⟩

end VeoBatch
